import Mathlib

/-!
Shallow embedding of the libLAS point record (`include/liblas/laspoint.hpp`).

The repository ships only the class declaration plus a few inline member
bodies (`operator[]`, `operator==`, `operator!=`, `GetData`, `SetData`).
Those inline bodies are translated here directly from the source.  The
remaining member functions are declared but not implemented in the given
sources, so they are modelled from the specification; each such definition
carries a doc comment starting `Modelled from the spec:`.

Machine doubles are modelled as exact rationals (`ℚ`), machine integers as
`Int`/`Nat` with explicit range conditions where width matters.  Fallible
operations return `Except LasError _`, one constructor per error kind of
the spec's §7.
-/

namespace LibLas

/-- Error kinds of the spec's §7 (ValueOutOfRange, CoordinateOverflow,
UnknownDimension, BufferTooSmall, IndexOutOfRange). -/
inductive LasError where
  | ValueOutOfRange
  | CoordinateOverflow
  | UnknownDimension
  | BufferTooSmall
  | IndexOutOfRange
deriving DecidableEq, Repr

/-- Modelled from the spec: §4.2 Classification value object, a 5-bit
`code` plus three independent boolean flags (synthetic, key-point,
withheld).  The packed-byte codec itself is not needed by the claims. -/
structure Classification where
  code : Nat
  synthetic : Bool
  keyPoint : Bool
  withheld : Bool
deriving DecidableEq, Repr

/-- Byte layout of one schema-declared dimension: byte offset and byte
width inside the attribute buffer (spec §4.4). -/
structure DimInfo where
  offset : Nat
  width : Nat
deriving DecidableEq, Repr

/-- Modelled from the spec: §3/§6 Header collaborator.  Per-axis scale and
offset, a schema mapping dimension names to byte layout, and the point
record's total byte width used to size the attribute buffer. -/
structure Header where
  scale_x : ℚ
  scale_y : ℚ
  scale_z : ℚ
  offset_x : ℚ
  offset_y : ℚ
  offset_z : ℚ
  schema : List (String × DimInfo)
  point_byte_width : Nat
deriving DecidableEq, Repr

/-- Schema lookup by dimension name (spec §4.4): first entry with the
given name, or `none` when the schema does not declare it. -/
def lookupDim : List (String × DimInfo) → String → Option DimInfo
  | [], _ => none
  | (n, d) :: rest, name => if n = name then some d else lookupDim rest name

/-- The Point record (`class Point`): fixed fields as in the source's
member list, the attribute buffer `m_format_data`, and the header
reference `m_header`. -/
structure Point where
  raw_x : Int
  raw_y : Int
  raw_z : Int
  intensity : Nat
  scan_flags : Nat
  classification : Classification
  scan_angle_rank : Int
  user_data : Nat
  point_source_id : Nat
  gps_time : ℚ
  m_format_data : List Nat
  header : Header
deriving DecidableEq, Repr

/-- Modelled from the spec: §4.3 raw-to-scaled transform,
`to_scaled(raw, scale, offset) = raw * scale + offset`
(the member bodies of `Point::GetX/GetY/GetZ` are not in the given
sources). -/
def to_scaled (raw : Int) (scale offset : ℚ) : ℚ :=
  (raw : ℚ) * scale + offset

/-- Modelled from the spec: §4.3 scaled-to-raw transform,
`to_raw(scaled, scale, offset) = round((scaled - offset) / scale)`,
erroring with `CoordinateOverflow` when the rounded value exceeds the
32-bit signed range. -/
def to_raw_checked (scaled scale offset : ℚ) : Except LasError Int :=
  let r := round ((scaled - offset) / scale)
  if r < -(2 ^ 31) ∨ 2 ^ 31 - 1 < r then .error .CoordinateOverflow
  else .ok r

/-- Modelled from the spec: `Point::GetX` routes the raw X through the
coordinate transform with the owning header's scale and offset. -/
def Point.GetX (p : Point) : ℚ := to_scaled p.raw_x p.header.scale_x p.header.offset_x

/-- Modelled from the spec: `Point::GetY`. -/
def Point.GetY (p : Point) : ℚ := to_scaled p.raw_y p.header.scale_y p.header.offset_y

/-- Modelled from the spec: `Point::GetZ`. -/
def Point.GetZ (p : Point) : ℚ := to_scaled p.raw_z p.header.scale_z p.header.offset_z

/-- Modelled from the spec: `Point::GetRawX`. -/
def Point.GetRawX (p : Point) : Int := p.raw_x

/-- Modelled from the spec: `Point::SetRawX`. -/
def Point.SetRawX (p : Point) (value : Int) : Point := { p with raw_x := value }

/-- Modelled from the spec: §4.1 BitField codec, read path — extract an
unsigned integer of the given bit width at the given bit offset (masked
and right-shifted). -/
def bits_extract (byte off width : Nat) : Nat :=
  (byte >>> off) &&& (2 ^ width - 1)

/-- Unchecked write path of the §4.1 BitField codec: clear the field's
bits in the byte and or-in the shifted value, leaving other bits
untouched. -/
def bits_inject_raw (byte off width value : Nat) : Nat :=
  (byte &&& (255 ^^^ ((2 ^ width - 1) <<< off))) ||| (value <<< off)

/-- Modelled from the spec: §4.1 BitField codec, write path — inject a
value into the byte leaving other bits untouched; a value wider than the
field's bit width is an error (`ValueOutOfRange`), never silently
truncated. -/
def bits_inject (byte off width value : Nat) : Except LasError Nat :=
  if 2 ^ width ≤ value then .error .ValueOutOfRange
  else .ok (bits_inject_raw byte off width value)

/-- Modelled from the spec: `Point::GetScanFlags` returns the packed
scan-flags byte. -/
def Point.GetScanFlags (p : Point) : Nat := p.scan_flags

/-- Modelled from the spec: `Point::SetScanFlags` overwrites the whole
packed byte. -/
def Point.SetScanFlags (p : Point) (flags : Nat) : Point :=
  { p with scan_flags := flags }

/-- Modelled from the spec: `Point::GetReturnNumber` — bits 0-2 of the
scan-flags byte. -/
def Point.GetReturnNumber (p : Point) : Nat := bits_extract p.scan_flags 0 3

/-- Modelled from the spec: `Point::SetReturnNumber` — re-packs only bits
0-2, failing with `ValueOutOfRange` for values wider than 3 bits. -/
def Point.SetReturnNumber (p : Point) (num : Nat) : Except LasError Point :=
  (bits_inject p.scan_flags 0 3 num).map fun b => { p with scan_flags := b }

/-- Modelled from the spec: `Point::GetNumberOfReturns` — bits 3-5. -/
def Point.GetNumberOfReturns (p : Point) : Nat := bits_extract p.scan_flags 3 3

/-- Modelled from the spec: `Point::SetNumberOfReturns` — re-packs only
bits 3-5. -/
def Point.SetNumberOfReturns (p : Point) (num : Nat) : Except LasError Point :=
  (bits_inject p.scan_flags 3 3 num).map fun b => { p with scan_flags := b }

/-- Modelled from the spec: `Point::GetScanDirection` — bit 6. -/
def Point.GetScanDirection (p : Point) : Nat := bits_extract p.scan_flags 6 1

/-- Modelled from the spec: `Point::SetScanDirection` — re-packs only
bit 6. -/
def Point.SetScanDirection (p : Point) (dir : Nat) : Except LasError Point :=
  (bits_inject p.scan_flags 6 1 dir).map fun b => { p with scan_flags := b }

/-- Modelled from the spec: `Point::GetFlightLineEdge` — bit 7. -/
def Point.GetFlightLineEdge (p : Point) : Nat := bits_extract p.scan_flags 7 1

/-- Modelled from the spec: `Point::SetFlightLineEdge` — re-packs only
bit 7. -/
def Point.SetFlightLineEdge (p : Point) (edge : Nat) : Except LasError Point :=
  (bits_inject p.scan_flags 7 1 edge).map fun b => { p with scan_flags := b }

/-- The source's `enum ScanAngleRankRange` lower bound (laspoint.hpp
line 103). -/
def eScanAngleRankMin : Int := -90

/-- The source's `enum ScanAngleRankRange` upper bound (laspoint.hpp
line 104). -/
def eScanAngleRankMax : Int := 90

/-- Modelled from the spec: `Point::GetScanAngleRank`. -/
def Point.GetScanAngleRank (p : Point) : Int := p.scan_angle_rank

/-- Modelled from the spec: `Point::SetScanAngleRank` fails with
`ValueOutOfRange` outside [`eScanAngleRankMin`, `eScanAngleRankMax`] and
stores the rank otherwise. -/
def Point.SetScanAngleRank (p : Point) (rank : Int) : Except LasError Point :=
  if rank < eScanAngleRankMin ∨ eScanAngleRankMax < rank then
    .error .ValueOutOfRange
  else
    .ok { p with scan_angle_rank := rank }

/-- Modelled from the spec: `Point::equal` compares coordinate values
only — an explicit design choice, not all fields — by value. -/
def Point.equal (p other : Point) : Bool :=
  p.GetX == other.GetX && p.GetY == other.GetY && p.GetZ == other.GetZ

/-- Translated from the source (laspoint.hpp lines 222-225):
`operator==(lhs, rhs)` returns `lhs.equal(rhs)`. -/
def pointEqOp (lhs rhs : Point) : Bool := lhs.equal rhs

/-- Translated from the source (laspoint.hpp lines 228-231):
`operator!=(lhs, rhs)` returns `!(lhs == rhs)`. -/
def pointNeOp (lhs rhs : Point) : Bool := !(pointEqOp lhs rhs)

/-- Translated from the source (laspoint.hpp lines 233-245):
`Point::operator[]` returns GetX/GetY/GetZ for index 0/1/2 and throws
`std::out_of_range` otherwise, modelled as `Except`. -/
def Point.subscript (p : Point) (index : Nat) : Except LasError ℚ :=
  if index = 0 then .ok p.GetX
  else if index = 1 then .ok p.GetY
  else if index = 2 then .ok p.GetZ
  else .error .IndexOutOfRange

/-- Translated from the source (laspoint.hpp line 199): `Point::GetData`
returns the attribute buffer `m_format_data`. -/
def Point.GetData (p : Point) : List Nat := p.m_format_data

/-- Translated from the source (laspoint.hpp line 200): `Point::SetData`
assigns the given vector to `m_format_data`, with no length check. -/
def Point.SetData (p : Point) (v : List Nat) : Point :=
  { p with m_format_data := v }

/-- The spec's §3 buffer-length invariant: the attribute buffer's length
equals the byte width the header declares for this point's format. -/
def Point.dataLenOk (p : Point) : Bool :=
  p.m_format_data.length = p.header.point_byte_width

/-- Modelled from the spec: §4.4 read path of `Point::GetValue` — resolve
the dimension in the header's schema (`UnknownDimension` on a miss),
check the buffer holds `offset + width` bytes (`BufferTooSmall`
otherwise), and extract the field's bytes. -/
def Point.GetValue (p : Point) (name : String) : Except LasError (List Nat) :=
  match lookupDim p.header.schema name with
  | none => .error .UnknownDimension
  | some d =>
      if p.m_format_data.length < d.offset + d.width then .error .BufferTooSmall
      else .ok ((p.m_format_data.drop d.offset).take d.width)

/-- Modelled from the spec: `Point::Validate` checks the §3 data-model
invariants (scan angle rank in [-90, 90], classification code in [0, 31],
attribute-buffer length matching the schema) and reports a boolean; being
a total `Bool`-valued function it never raises. -/
def Point.Validate (p : Point) : Bool :=
  decide (eScanAngleRankMin ≤ p.scan_angle_rank) &&
  decide (p.scan_angle_rank ≤ eScanAngleRankMax) &&
  decide (p.classification.code ≤ 31) &&
  p.dataLenOk

/-- Modelled from the spec: `Point::IsValid` is identical to `Validate`
(no caching is used). -/
def Point.IsValid (p : Point) : Bool := p.Validate

/-- Concrete header used to instantiate theorems with hypotheses. -/
def testHeader : Header :=
  { scale_x := 1, scale_y := 1, scale_z := 1,
    offset_x := 0, offset_y := 0, offset_z := 0,
    schema := [("X", ⟨0, 4⟩)], point_byte_width := 4 }

/-- Concrete point used to instantiate theorems with hypotheses. -/
def testPoint : Point :=
  { raw_x := 1, raw_y := 2, raw_z := 3, intensity := 0, scan_flags := 0,
    classification := ⟨0, false, false, false⟩, scan_angle_rank := 0,
    user_data := 0, point_source_id := 0, gps_time := 0,
    m_format_data := [0, 0, 0, 0], header := testHeader }

/-- C1: for every 32-bit signed raw integer and every (scale, offset) with
scale ≠ 0, converting raw to scaled (`scaled = raw * scale + offset`) and
back (`raw = round((scaled - offset) / scale)`) yields the raw value
again — here exactly, which is within one unit of rounding. -/
theorem roundtrip_raw_scaled (r : Int) (scale offset : ℚ)
    (hs : scale ≠ 0) (hlo : -(2 ^ 31) ≤ r) (hhi : r ≤ 2 ^ 31 - 1) :
    to_raw_checked (to_scaled r scale offset) scale offset = .ok r := by
  have h1 : ((r : ℚ) * scale + offset - offset) / scale = (r : ℚ) := by
    rw [add_sub_cancel_right, mul_div_cancel_right₀ _ hs]
  simp only [to_raw_checked, to_scaled, h1, round_intCast]
  rw [if_neg]
  push_neg
  exact ⟨hlo, hhi⟩

/-- Witness for C1 at raw = 5, scale = 2, offset = 3. -/
theorem roundtrip_raw_scaled_witness :
    to_raw_checked (to_scaled 5 2 3) 2 3 = .ok 5 :=
  roundtrip_raw_scaled 5 2 3 (by norm_num) (by decide) (by decide)

/-- C2: indexed coordinate access returns `GetX`/`GetY`/`GetZ` for
indices 0/1/2 and fails with `IndexOutOfRange` for every other index. -/
theorem subscript_xyz (p : Point) :
    p.subscript 0 = .ok p.GetX ∧ p.subscript 1 = .ok p.GetY ∧
    p.subscript 2 = .ok p.GetZ ∧
    ∀ index : Nat, 2 < index → p.subscript index = .error .IndexOutOfRange := by
  refine ⟨rfl, rfl, rfl, ?_⟩
  intro index h
  unfold Point.subscript
  rw [if_neg (by omega), if_neg (by omega), if_neg (by omega)]

/-- Witness for C2 at index 3 and index 0 on a concrete point. -/
theorem subscript_xyz_witness :
    testPoint.subscript 3 = .error .IndexOutOfRange ∧
    testPoint.subscript 0 = .ok testPoint.GetX :=
  ⟨(subscript_xyz testPoint).2.2.2 3 (by decide), (subscript_xyz testPoint).1⟩

/-- C3: `Point::equal` compares only the coordinate values, by value —
it returns true exactly when X, Y and Z agree, regardless of intensity,
classification or any other field. -/
theorem equal_compares_coords_only (p q : Point) :
    p.equal q = true ↔ (p.GetX = q.GetX ∧ p.GetY = q.GetY ∧ p.GetZ = q.GetZ) := by
  simp [Point.equal, and_assoc]

/-- C4: `operator==` returns exactly `lhs.equal(rhs)`, `operator!=`
exactly its negation, so exactly one of the two holds for any pair. -/
theorem eq_ne_ops (lhs rhs : Point) :
    pointEqOp lhs rhs = lhs.equal rhs ∧
    pointNeOp lhs rhs = !(pointEqOp lhs rhs) ∧
    ((pointEqOp lhs rhs = true) ↔ ¬(pointNeOp lhs rhs = true)) := by
  refine ⟨rfl, rfl, ?_⟩
  simp [pointNeOp]

/-- Success characterization of the BitField write path: `bits_inject`
returns `ok` exactly when the value fits the width, and then the result
is the unchecked injection. -/
theorem bits_inject_ok (b o w v r : Nat) :
    bits_inject b o w v = .ok r ↔ v < 2 ^ w ∧ r = bits_inject_raw b o w v := by
  unfold bits_inject
  split
  · rename_i h
    constructor
    · intro hc; cases hc
    · intro hc; omega
  · rename_i h
    simp only [Except.ok.injEq]
    constructor
    · intro hc; exact ⟨by omega, hc.symm⟩
    · intro hc; exact hc.2.symm

/-- A scan-flag setter succeeds exactly when the value fits, and then it
rewrites only the scan-flags byte via the unchecked injection. -/
theorem setter_ok_flags (p : Point) (o w v : Nat) (q : Point)
    (h : (bits_inject p.scan_flags o w v).map
      (fun b => { p with scan_flags := b }) = .ok q) :
    v < 2 ^ w ∧ q = { p with scan_flags := bits_inject_raw p.scan_flags o w v } := by
  cases hbi : bits_inject p.scan_flags o w v with
  | error e => rw [hbi] at h; cases h
  | ok b2 =>
      rw [hbi] at h
      simp only [Except.map, Except.ok.injEq] at h
      obtain ⟨hv, hb⟩ := (bits_inject_ok _ _ _ _ _).mp hbi
      subst hb
      exact ⟨hv, h.symm⟩

set_option maxRecDepth 100000 in
/-- Injecting into bits 0-2 leaves bits 3-5, bit 6 and bit 7 unchanged,
for every byte and every 3-bit value. -/
theorem inj03_preserves : ∀ b < 256, ∀ v < 2 ^ 3,
    bits_extract (bits_inject_raw b 0 3 v) 3 3 = bits_extract b 3 3 ∧
    bits_extract (bits_inject_raw b 0 3 v) 6 1 = bits_extract b 6 1 ∧
    bits_extract (bits_inject_raw b 0 3 v) 7 1 = bits_extract b 7 1 := by decide

set_option maxRecDepth 100000 in
/-- Injecting into bits 3-5 leaves bits 0-2, bit 6 and bit 7 unchanged. -/
theorem inj33_preserves : ∀ b < 256, ∀ v < 2 ^ 3,
    bits_extract (bits_inject_raw b 3 3 v) 0 3 = bits_extract b 0 3 ∧
    bits_extract (bits_inject_raw b 3 3 v) 6 1 = bits_extract b 6 1 ∧
    bits_extract (bits_inject_raw b 3 3 v) 7 1 = bits_extract b 7 1 := by decide

set_option maxRecDepth 100000 in
/-- Injecting into bit 6 leaves bits 0-2, bits 3-5 and bit 7 unchanged. -/
theorem inj61_preserves : ∀ b < 256, ∀ v < 2 ^ 1,
    bits_extract (bits_inject_raw b 6 1 v) 0 3 = bits_extract b 0 3 ∧
    bits_extract (bits_inject_raw b 6 1 v) 3 3 = bits_extract b 3 3 ∧
    bits_extract (bits_inject_raw b 6 1 v) 7 1 = bits_extract b 7 1 := by decide

set_option maxRecDepth 100000 in
/-- Injecting into bit 7 leaves bits 0-2, bits 3-5 and bit 6 unchanged. -/
theorem inj71_preserves : ∀ b < 256, ∀ v < 2 ^ 1,
    bits_extract (bits_inject_raw b 7 1 v) 0 3 = bits_extract b 0 3 ∧
    bits_extract (bits_inject_raw b 7 1 v) 3 3 = bits_extract b 3 3 ∧
    bits_extract (bits_inject_raw b 7 1 v) 6 1 = bits_extract b 6 1 := by decide

/-- C5: setting any one of the four packed scan-flag sub-fields leaves
the other three sub-fields of the shared byte unchanged when read back,
for every starting value of the byte. -/
theorem set_scanflag_field_independence (p : Point) (hp : p.scan_flags < 256)
    (v : Nat) (q : Point) :
    (p.SetReturnNumber v = .ok q →
      q.GetNumberOfReturns = p.GetNumberOfReturns ∧
      q.GetScanDirection = p.GetScanDirection ∧
      q.GetFlightLineEdge = p.GetFlightLineEdge) ∧
    (p.SetNumberOfReturns v = .ok q →
      q.GetReturnNumber = p.GetReturnNumber ∧
      q.GetScanDirection = p.GetScanDirection ∧
      q.GetFlightLineEdge = p.GetFlightLineEdge) ∧
    (p.SetScanDirection v = .ok q →
      q.GetReturnNumber = p.GetReturnNumber ∧
      q.GetNumberOfReturns = p.GetNumberOfReturns ∧
      q.GetFlightLineEdge = p.GetFlightLineEdge) ∧
    (p.SetFlightLineEdge v = .ok q →
      q.GetReturnNumber = p.GetReturnNumber ∧
      q.GetNumberOfReturns = p.GetNumberOfReturns ∧
      q.GetScanDirection = p.GetScanDirection) := by
  refine ⟨fun h => ?_, fun h => ?_, fun h => ?_, fun h => ?_⟩
  · obtain ⟨hv, hq⟩ := setter_ok_flags p 0 3 v q h
    subst hq
    exact inj03_preserves p.scan_flags hp v hv
  · obtain ⟨hv, hq⟩ := setter_ok_flags p 3 3 v q h
    subst hq
    exact inj33_preserves p.scan_flags hp v hv
  · obtain ⟨hv, hq⟩ := setter_ok_flags p 6 1 v q h
    subst hq
    exact inj61_preserves p.scan_flags hp v hv
  · obtain ⟨hv, hq⟩ := setter_ok_flags p 7 1 v q h
    subst hq
    exact inj71_preserves p.scan_flags hp v hv

/-- Concrete point with scan-flags byte 0x85 (edge = 1, direction = 0,
returns = 0, return number = 5). -/
def flagPoint : Point := { testPoint with scan_flags := 133 }

/-- The result of setting the return number of `flagPoint` to 3. -/
def flagPointRN3 : Point :=
  { flagPoint with scan_flags := bits_inject_raw 133 0 3 3 }

/-- Witness for C5: setting return number 3 on the 0x85 byte keeps the
other three sub-fields. -/
theorem set_scanflag_field_independence_witness :
    flagPointRN3.GetNumberOfReturns = flagPoint.GetNumberOfReturns ∧
    flagPointRN3.GetScanDirection = flagPoint.GetScanDirection ∧
    flagPointRN3.GetFlightLineEdge = flagPoint.GetFlightLineEdge :=
  (set_scanflag_field_independence flagPoint (by decide) 3 flagPointRN3).1 (by rfl)

/-- C6: every scan-flag setter fails with `ValueOutOfRange` for a value
wider than the target field's width (3 bits for return number and number
of returns, 1 bit for scan direction and flight-line edge), and never
silently truncates. -/
theorem setter_rejects_wide (p : Point) (v : Nat) :
    (8 ≤ v → p.SetReturnNumber v = .error .ValueOutOfRange) ∧
    (8 ≤ v → p.SetNumberOfReturns v = .error .ValueOutOfRange) ∧
    (2 ≤ v → p.SetScanDirection v = .error .ValueOutOfRange) ∧
    (2 ≤ v → p.SetFlightLineEdge v = .error .ValueOutOfRange) := by
  refine ⟨fun h => ?_, fun h => ?_, fun h => ?_, fun h => ?_⟩ <;>
    · simp only [Point.SetReturnNumber, Point.SetNumberOfReturns,
        Point.SetScanDirection, Point.SetFlightLineEdge, bits_inject]
      rw [if_pos (by norm_num; omega)]
      rfl

/-- Witness for C6 at value 8 (too wide for every field). -/
theorem setter_rejects_wide_witness :
    testPoint.SetReturnNumber 8 = .error .ValueOutOfRange ∧
    testPoint.SetScanDirection 8 = .error .ValueOutOfRange :=
  ⟨(setter_rejects_wide testPoint 8).1 (by decide),
   (setter_rejects_wide testPoint 8).2.2.1 (by decide)⟩

/-- C7: `SetScanAngleRank` succeeds for every argument in [-90, 90] and
fails with `ValueOutOfRange` for every argument outside that range; on
failure no modified point is produced, so the stored rank is unchanged. -/
theorem scan_angle_rank_boundary (p : Point) (rank : Int) :
    (eScanAngleRankMin ≤ rank → rank ≤ eScanAngleRankMax →
      p.SetScanAngleRank rank = .ok { p with scan_angle_rank := rank }) ∧
    (rank < eScanAngleRankMin ∨ eScanAngleRankMax < rank →
      p.SetScanAngleRank rank = .error .ValueOutOfRange) := by
  unfold Point.SetScanAngleRank
  constructor
  · intro h1 h2
    rw [if_neg]
    push_neg
    exact ⟨h1, h2⟩
  · intro h
    rw [if_pos h]

/-- Witness for C7 at ranks 90, -90, 91 and -91. -/
theorem scan_angle_rank_boundary_witness :
    testPoint.SetScanAngleRank 90 = .ok { testPoint with scan_angle_rank := 90 } ∧
    testPoint.SetScanAngleRank (-90) = .ok { testPoint with scan_angle_rank := -90 } ∧
    testPoint.SetScanAngleRank 91 = .error .ValueOutOfRange ∧
    testPoint.SetScanAngleRank (-91) = .error .ValueOutOfRange :=
  ⟨(scan_angle_rank_boundary testPoint 90).1 (by decide) (by decide),
   (scan_angle_rank_boundary testPoint (-90)).1 (by decide) (by decide),
   (scan_angle_rank_boundary testPoint 91).2 (Or.inr (by decide)),
   (scan_angle_rank_boundary testPoint (-91)).2 (Or.inl (by decide))⟩

/-- C8: reading a dimension the owning header's schema does not declare
fails with `UnknownDimension`. -/
theorem getvalue_unknown_dimension (p : Point) (name : String)
    (h : lookupDim p.header.schema name = none) :
    p.GetValue name = .error .UnknownDimension := by
  unfold Point.GetValue
  rw [h]

/-- Witness for C8: the test schema declares only "X". -/
theorem getvalue_unknown_dimension_witness :
    testPoint.GetValue "Nonexistent" = .error .UnknownDimension :=
  getvalue_unknown_dimension testPoint "Nonexistent" (by decide)

/-- Counterexample to C9: `SetData` performs no length check, so the
buffer-length invariant holds before but not after replacing the buffer
of a schema-width-4 point with a 5-byte vector. -/
theorem setdata_breaks_len_invariant :
    testPoint.dataLenOk = true ∧
    (testPoint.SetData [0, 0, 0, 0, 0]).dataLenOk = false := by
  decide

/-- C9 amended: `SetData` replaces the attribute buffer with exactly the
given bytes and performs no length validation, so the length invariant
holds after `SetData` exactly when the supplied buffer already has the
schema-declared width; a schema lookup whose offset + width exceeds the
buffer length fails with `BufferTooSmall`. -/
theorem setdata_unchecked (p : Point) (v : List Nat) :
    (p.SetData v).GetData = v ∧
    ((p.SetData v).dataLenOk = true ↔ v.length = p.header.point_byte_width) ∧
    (∀ name d, lookupDim p.header.schema name = some d →
      p.m_format_data.length < d.offset + d.width →
      p.GetValue name = .error .BufferTooSmall) := by
  refine ⟨rfl, ?_, ?_⟩
  · simp [Point.SetData, Point.dataLenOk]
  · intro name d hd hlen
    simp [Point.GetValue, hd, hlen]

/-- Concrete point whose 1-byte buffer is shorter than the schema's
4-byte "X" field. -/
def shortPoint : Point := { testPoint with m_format_data := [9] }

/-- Witness for C9 amended: `SetData` stores exactly the given bytes and
a lookup past the buffer end fails with `BufferTooSmall`. -/
theorem setdata_unchecked_witness :
    (shortPoint.SetData [1, 2]).GetData = [1, 2] ∧
    shortPoint.GetValue "X" = .error .BufferTooSmall :=
  ⟨(setdata_unchecked shortPoint [1, 2]).1,
   (setdata_unchecked shortPoint [1, 2]).2.2 "X" ⟨0, 4⟩ (by decide) (by decide)⟩

/-- C10: `IsValid` returns the same result as `Validate`, and `Validate`
is a total boolean report of the data-model invariants (scan angle rank
in [-90, 90], classification code in [0, 31], buffer length matching the
schema) — being total `Bool`-valued functions, neither can raise. -/
theorem validate_reports (p : Point) :
    p.IsValid = p.Validate ∧
    (p.Validate = true ↔
      (eScanAngleRankMin ≤ p.scan_angle_rank ∧
       p.scan_angle_rank ≤ eScanAngleRankMax ∧
       p.classification.code ≤ 31 ∧
       p.m_format_data.length = p.header.point_byte_width)) := by
  refine ⟨rfl, ?_⟩
  simp [Point.Validate, Point.dataLenOk, and_assoc]

end LibLas
